import Mathlib

/-!
Verification of the `mint` bag tracker (Rust crates `tracker` and `core`)
against its natural-language specification.

The development is a shallow embedding of the tracker's data model and
operations:

* byte strings (`[u8; 32]` bag ids, scripts) become `List Nat`;
* block hashes and transaction ids (opaque 32-byte values compared
  bytewise) become `Nat` with decidable equality;
* `HashMap` / `HashSet` state of the in-memory storage becomes
  association lists / lists with canonical insertion order, and the
  interior mutability of `&self` methods becomes explicit state passing;
* the sqlite storage becomes the list of its table rows;
* fallible Rust paths (`Result`) become `Except`, `unwrap`/`expect`
  panics and possible non-termination become an outer `Option` (`none`
  models the panic or exhausted fuel).
-/

/-- Bag identifier: `BagId(pub [u8; 32])`, equality is bytewise
(`src/tracker/src/bag_id.rs`). Modelled as a byte list; codec claims
constrain its length to 32 where the Rust type forces it. -/
abbrev BagId := List Nat

/-- Block hash: opaque 32-byte double hash, only compared for equality. -/
abbrev BlockHash := Nat

/-- Transaction id: opaque 32-byte double hash, only compared for equality. -/
abbrev Txid := Nat

/-- A transaction output: satoshi value and locking-script bytes
(`bitcoin::TxOut`). -/
structure TxOut where
  value : Nat
  script_pubkey : List Nat
deriving DecidableEq, Repr

/-- A transaction, reduced to what the tracker reads: its id (the Rust
code computes `tx.txid()`; the model carries it as a field, keeping the
hash function abstract) and its output list. -/
structure Transaction where
  txid : Txid
  output : List TxOut
deriving DecidableEq, Repr

/-- A block, reduced to its transaction list (`bitcoin::Block.txdata`). -/
structure Block where
  txdata : List Transaction
deriving DecidableEq, Repr

/-- Bitcoin outpoint (`src/tracker/src/record.rs`). -/
structure Outpoint where
  txid : Txid
  out_pos : Nat
deriving DecidableEq, Repr

/-- Bid information extracted from a bitcoin transaction
(`src/tracker/src/record.rs`). -/
structure BidTx where
  outpoint : Outpoint
  bag_id : BagId
deriving DecidableEq, Repr

/-- Proof that a bid transaction appears in a given block
(`src/tracker/src/record.rs`). -/
structure BidProof where
  btc_block : BlockHash
  tx : BidTx
deriving DecidableEq, Repr

/-- Full bid entry persisted in storage (`src/tracker/src/record.rs`). -/
structure BidEntry where
  amount : Nat
  proof : BidProof
deriving DecidableEq, Repr

/-- Bag id and amount recognized in one output
(`src/tracker/src/record.rs`). -/
structure BidEntryData where
  bag_id : BagId
  amount : Nat
deriving DecidableEq, Repr

/-- `Script::is_v0_p2wsh` of the `bitcoin` crate as the repository uses
it: the script is exactly 34 bytes, byte 0 is `OP_0` (`0x00`, the v0
witness version) and byte 1 is `OP_PUSHBYTES_32` (`0x20`). -/
def is_v0_p2wsh (s : List Nat) : Bool :=
  s.length == 34 && s.take 2 == [0x00, 0x20]

/-- `parse_mint_btc_output` (`src/tracker/src/index.rs`, lines 250-260):
on a v0-P2WSH script return the 32 bytes `script[2..34]` as the bag id
together with the output's value, otherwise `None`. The Rust
`BagId::try_from(..).expect(..)` cannot fail since the slice has
length 32. -/
def parse_mint_btc_output (out : TxOut) : Option BidEntryData :=
  match is_v0_p2wsh out.script_pubkey with
  | true => some ⟨(out.script_pubkey.drop 2).take 32, out.value⟩
  | false => none

/-- The writer of the mint output script, from `send_mint_transaction`
(`src/tracker/src/bitcoin_client.rs`):
`Script::new_v0_wsh(&WScriptHash::from_hash(sha256::Hash::from_slice(&bag_id.0)))`
reinterprets the 32 bag-id bytes as the witness program, producing
`OP_0 PUSH32 <bag_id>`. -/
def new_v0_wsh (bag : List Nat) : List Nat :=
  0x00 :: 0x20 :: bag

/-- Whether an output matches the mint pattern for a given bag, the test
inside `find_out_pos_mint_tx` (`src/tracker/src/bitcoin_client.rs`,
lines 120-135): `is_v0_p2wsh` and `script[2..34] == bag`. -/
def is_mint_output_for (bag : BagId) (out : TxOut) : Bool :=
  is_v0_p2wsh out.script_pubkey && (out.script_pubkey.drop 2).take 32 == bag

/-- The enumerated `find_map` of `find_out_pos_mint_tx`, compiled to
structural recursion carrying the running index. -/
def find_out_pos_go (bag : BagId) : List TxOut → Nat → Option Nat
  | [], _ => none
  | out :: rest, i =>
    match is_mint_output_for bag out with
    | true => some i
    | false => find_out_pos_go bag rest (i + 1)

/-- `find_out_pos_mint_tx` (`src/tracker/src/bitcoin_client.rs`, lines
120-135) up to the final `.unwrap()`: the earliest output position whose
script is the v0-P2WSH push of `bag`; `none` is the case in which the
Rust code panics on `unwrap`. -/
def find_out_pos_mint_tx (tx : Transaction) (bag : BagId) : Option Nat :=
  find_out_pos_go bag tx.output 0

/-- The tail of `send_mint_transaction`
(`src/tracker/src/bitcoin_client.rs`, lines 83-115), with the wallet
interaction abstracted: given the txid reported by the node and the
decoded signed transaction, locate the bag output and build the `BidTx`.
`none` models the `unwrap` panic of `find_out_pos_mint_tx`. -/
def send_mint_transaction (txid : Txid) (signed : Transaction) (bag : BagId) :
    Option BidTx :=
  (find_out_pos_mint_tx signed bag).map (fun pos => ⟨⟨txid, pos⟩, bag⟩)

/-- Storage errors (`src/tracker/src/storage/def.rs`, lines 35-45):
`BagDoesNotExists(bag)`, `WrongFormat`, and `Other(backend)` with the
backend payload abstracted. There is no `BagAlreadyExists` variant. -/
inductive BidStorageErr where
  | bagDoesNotExists (bag : BagId)
  | wrongFormat
  | otherErr
deriving DecidableEq, Repr

/-- Association-list lookup, the model of `HashMap::get`. -/
def alookup {κ β : Type} [BEq κ] : List (κ × β) → κ → Option β
  | [], _ => none
  | p :: rest, k => if p.1 == k then some p.2 else alookup rest k

/-- Association-list insert-or-replace, the model of `HashMap::insert`. -/
def alistUpsert {κ β : Type} [BEq κ] : List (κ × β) → κ → β → List (κ × β)
  | [], k, v => [(k, v)]
  | p :: rest, k, v => if p.1 == k then (k, v) :: rest else p :: alistUpsert rest k v

/-- `MemoryIndexStorage` (`src/tracker/src/storage/memory.rs`):
`confirmed: HashMap<BlockHash, HashMap<BagId, BidEntry>>` and
`unconfirmed: HashSet<BagId>`, as association lists / a duplicate-free
list in canonical insertion order. -/
structure MemoryIndexStorage where
  confirmed : List (BlockHash × List (BagId × BidEntry))
  unconfirmed : List BagId
deriving DecidableEq, Repr

/-- `MemoryIndexStorage::insert_bid` (memory.rs lines 29-34):
`confirmed.entry(record.proof.btc_block).or_default()` then
`set.insert(bag_id, record)` — an unconditional upsert, always `Ok`. -/
def mem_insert_bid (s : MemoryIndexStorage) (record : BidEntry) :
    Except BidStorageErr MemoryIndexStorage :=
  let blk := record.proof.btc_block
  let inner := (alookup s.confirmed blk).getD []
  .ok { s with confirmed :=
          alistUpsert s.confirmed blk (alistUpsert inner record.proof.tx.bag_id record) }

/-- `MemoryIndexStorage::insert_unconfirmed_bag` (memory.rs lines
36-40): `HashSet::insert`, always `Ok`. -/
def mem_insert_unconfirmed_bag (s : MemoryIndexStorage) (bag : BagId) :
    Except BidStorageErr MemoryIndexStorage :=
  .ok { s with unconfirmed :=
          if bag ∈ s.unconfirmed then s.unconfirmed else s.unconfirmed ++ [bag] }

/-- `MemoryIndexStorage::remove_with_block_hash` (memory.rs lines
47-50): `confirmed.remove(hash)` — the whole entry for the block is
deleted, nothing is moved to `unconfirmed`, and the call always
returns `Ok`. -/
def mem_remove_with_block_hash (s : MemoryIndexStorage) (hash : BlockHash) :
    Except BidStorageErr MemoryIndexStorage :=
  .ok { s with confirmed := s.confirmed.filter (fun p => ! (p.1 == hash)) }

/-- `MemoryIndexStorage::remove_bag` (memory.rs lines 52-81): try the
unconfirmed set first; else remove the bag from the first confirmed
block containing it, dropping the block entry if it became empty. -/
def mem_remove_bag (s : MemoryIndexStorage) (bag : BagId) :
    Except BidStorageErr MemoryIndexStorage :=
  if bag ∈ s.unconfirmed then
    .ok { s with unconfirmed := s.unconfirmed.filter (fun b => ! (b == bag)) }
  else
    match s.confirmed.find? (fun p => p.2.any (fun q => q.1 == bag)) with
    | none => .error (.bagDoesNotExists bag)
    | some p =>
      let inner := p.2.filter (fun q => ! (q.1 == bag))
      let confirmed := s.confirmed.map (fun q => if q.1 == p.1 then (p.1, inner) else q)
      .ok { s with confirmed :=
              if inner.isEmpty then confirmed.filter (fun q => ! (q.1 == p.1))
              else confirmed }

/-- `MemoryIndexStorage::update_bid` (memory.rs lines 42-45):
`remove_bag` then `insert_bid`. -/
def mem_update_bid (s : MemoryIndexStorage) (record : BidEntry) :
    Except BidStorageErr MemoryIndexStorage :=
  match mem_remove_bag s record.proof.tx.bag_id with
  | .error e => .error e
  | .ok s' => mem_insert_bid s' record

/-- `MemoryIndexStorage::get_blocks_count` (memory.rs lines 83-85). -/
def mem_get_blocks_count (s : MemoryIndexStorage) : Except BidStorageErr Nat :=
  .ok s.confirmed.length

/-- `MemoryIndexStorage::get_records_by_block_hash` (memory.rs lines
87-98): `confirmed.get(hash).map(..).unwrap()`. The outer `none` models
the `unwrap` panic on a hash with no confirmed entry. -/
def mem_get_records_by_block_hash (s : MemoryIndexStorage) (hash : BlockHash) :
    Option (Except BidStorageErr (List BidEntry)) :=
  (alookup s.confirmed hash).map (fun inner => .ok (inner.map (fun q => q.2)))

/-- `MemoryIndexStorage::is_bag_confirmed` (memory.rs lines 104-111). -/
def mem_is_bag_confirmed (s : MemoryIndexStorage) (bag : BagId) : Bool :=
  s.confirmed.any (fun p => p.2.any (fun q => q.1 == bag))

/-- `MemoryIndexStorage::is_bag_exists` (memory.rs lines 100-102). -/
def mem_is_bag_exists (s : MemoryIndexStorage) (bag : BagId) :
    Except BidStorageErr Bool :=
  .ok (mem_is_bag_confirmed s bag || s.unconfirmed.any (fun b => b == bag))

/-- A row of the sqlite table `records`
(`src/tracker/src/storage/sqlite.rs`, lines 32-46): nullable block,
txid, out_pos, amount; non-null bag_id. -/
structure Row where
  block : Option BlockHash
  txid : Option Txid
  out_pos : Option Nat
  bag_id : BagId
  amount : Option Nat
deriving DecidableEq, Repr

/-- `SqliteIndexStorage` as the list of rows of its single table, in
insertion order. -/
abbrev SqliteIndexStorage := List Row

/-- The row written by `SqliteIndexStorage::insert_bid`. -/
def rowOfEntry (record : BidEntry) : Row :=
  ⟨some record.proof.btc_block, some record.proof.tx.outpoint.txid,
   some record.proof.tx.outpoint.out_pos, record.proof.tx.bag_id,
   some record.amount⟩

/-- `SqliteIndexStorage::insert_bid` (sqlite.rs lines 51-63): a plain
`INSERT`, appending one full row; no uniqueness check, never
`BagAlreadyExists`. -/
def sql_insert_bid (s : SqliteIndexStorage) (record : BidEntry) :
    Except BidStorageErr SqliteIndexStorage :=
  .ok (s ++ [rowOfEntry record])

/-- `SqliteIndexStorage::insert_unconfirmed_bag` (sqlite.rs lines
126-138): a plain `INSERT` of `(NULL, NULL, NULL, bag, NULL)` on every
call. -/
def sql_insert_unconfirmed_bag (s : SqliteIndexStorage) (bag : BagId) :
    Except BidStorageErr SqliteIndexStorage :=
  .ok (s ++ [⟨none, none, none, bag, none⟩])

/-- `SqliteIndexStorage::remove_with_block_hash` (sqlite.rs lines
73-77): `DELETE FROM records WHERE block = ?1` — rows are deleted, not
demoted to unconfirmed. -/
def sql_remove_with_block_hash (s : SqliteIndexStorage) (hash : BlockHash) :
    Except BidStorageErr SqliteIndexStorage :=
  .ok (s.filter (fun r => ! (r.block == some hash)))

/-- Decoding one selected row back into a `BidEntry` (sqlite.rs lines
87-110); a NULL in any witness column makes the row-mapper fail, which
surfaces as a backend error. -/
def decodeRow (r : Row) : Except BidStorageErr BidEntry :=
  match r.block, r.txid, r.out_pos, r.amount with
  | some b, some t, some p, some a => .ok ⟨a, ⟨b, ⟨⟨t, p⟩, r.bag_id⟩⟩⟩
  | _, _, _, _ => .error .otherErr

/-- `SqliteIndexStorage::get_records_by_block_hash` (sqlite.rs lines
79-113): `SELECT .. WHERE block = ?1` then collect the decoded rows
(the SQL `=` never matches a NULL block). An absent hash yields
`Ok(vec![])`. -/
def sql_get_records_by_block_hash (s : SqliteIndexStorage) (hash : BlockHash) :
    Except BidStorageErr (List BidEntry) :=
  (s.filter (fun r => r.block == some hash)).mapM decodeRow

/-- `SqliteIndexStorage::remove_bag` (sqlite.rs lines 115-124):
`DELETE .. WHERE bag_id = ?1`, `BagDoesNotExists` when zero rows were
deleted. -/
def sql_remove_bag (s : SqliteIndexStorage) (bag : BagId) :
    Except BidStorageErr SqliteIndexStorage :=
  let s' := s.filter (fun r => ! (r.bag_id == bag))
  if s'.length == s.length then .error (.bagDoesNotExists bag) else .ok s'

/-- `SqliteIndexStorage::update_bid` (sqlite.rs lines 140-156):
`UPDATE records SET block, txid, out_pos, amount WHERE bag_id = ?5` over
every matching row; `BagDoesNotExists` when none matched. -/
def sql_update_bid (s : SqliteIndexStorage) (record : BidEntry) :
    Except BidStorageErr SqliteIndexStorage :=
  if s.countP (fun r => r.bag_id == record.proof.tx.bag_id) == 0 then
    .error (.bagDoesNotExists record.proof.tx.bag_id)
  else
    .ok (s.map (fun r =>
      if r.bag_id == record.proof.tx.bag_id then
        { r with block := some record.proof.btc_block,
                 txid := some record.proof.tx.outpoint.txid,
                 out_pos := some record.proof.tx.outpoint.out_pos,
                 amount := some record.amount }
      else r))

/-- `SqliteIndexStorage::get_blocks_count` (sqlite.rs lines 65-71):
`COUNT(DISTINCT block)`, NULLs not counted. -/
def sql_get_blocks_count (s : SqliteIndexStorage) : Except BidStorageErr Nat :=
  .ok ((s.filterMap (fun r => r.block)).dedup.length)

/-- `SqliteIndexStorage::is_bag_exists` (sqlite.rs lines 158-166). -/
def sql_is_bag_exists (s : SqliteIndexStorage) (bag : BagId) :
    Except BidStorageErr Bool :=
  .ok (s.any (fun r => r.bag_id == bag))

/-- The `BidStorage` trait (`src/tracker/src/storage/def.rs`) as a
record of operations over an abstract state, mirroring the generic
parameter `S: BidStorage` of `Index`. The `&self` interior mutability of
the Rust trait becomes explicit state passing. -/
structure BidStorage (σ : Type) where
  insert_bid : σ → BidEntry → Except BidStorageErr σ
  insert_unconfirmed_bag : σ → BagId → Except BidStorageErr σ
  update_bid : σ → BidEntry → Except BidStorageErr σ
  remove_with_block_hash : σ → BlockHash → Except BidStorageErr σ
  remove_bag : σ → BagId → Except BidStorageErr σ
  get_blocks_count : σ → Except BidStorageErr Nat
  get_records_by_block_hash : σ → BlockHash → Option (Except BidStorageErr (List BidEntry))
  is_bag_exists : σ → BagId → Except BidStorageErr Bool

/-- The in-memory implementation packaged as a `BidStorage`. -/
def memStorage : BidStorage MemoryIndexStorage :=
  ⟨mem_insert_bid, mem_insert_unconfirmed_bag, mem_update_bid,
   mem_remove_with_block_hash, mem_remove_bag, mem_get_blocks_count,
   mem_get_records_by_block_hash, mem_is_bag_exists⟩

/-- The sqlite implementation packaged as a `BidStorage` (its
`get_records_by_block_hash` has no panic path, hence always `some`). -/
def sqlStorage : BidStorage SqliteIndexStorage :=
  ⟨sql_insert_bid, sql_insert_unconfirmed_bag, sql_update_bid,
   sql_remove_with_block_hash, sql_remove_bag, sql_get_blocks_count,
   fun s hash => some (sql_get_records_by_block_hash s hash),
   sql_is_bag_exists⟩

/-- A 32-byte bag id used by the concrete counterexamples. -/
def bag_one : BagId := List.replicate 32 1

/-- A second 32-byte bag id used by the concrete counterexamples. -/
def bag_two : BagId := List.replicate 32 2

/-- A confirmed bid entry for `bag_one`, witnessed in block 5. -/
def entry_one : BidEntry := ⟨10, ⟨5, ⟨⟨9, 0⟩, bag_one⟩⟩⟩

/-- A confirmed bid entry for `bag_two`, witnessed in block 8. -/
def entry_two : BidEntry := ⟨7, ⟨8, ⟨⟨11, 0⟩, bag_two⟩⟩⟩

/-- Memory storage holding exactly the confirmed `entry_one`. -/
def mem_with_entry_one : MemoryIndexStorage := ⟨[(5, [(bag_one, entry_one)])], []⟩

/-- The unconfirmed row `sql_insert_unconfirmed_bag` writes for
`bag_two`. -/
def null_row_two : Row := ⟨none, none, none, bag_two, none⟩

/-- The row `entry_two` occupies once confirmed. -/
def row_two : Row := rowOfEntry entry_two

/-- Reads a bag's confirmed entry under a given block in the memory
storage: `confirmed.get(blk)` then `.get(bag)`. -/
def mem_confirmed_lookup (s : MemoryIndexStorage) (blk : BlockHash) (bag : BagId) :
    Option BidEntry :=
  (alookup s.confirmed blk).bind (fun inner => alookup inner bag)

/-- Block header information as the tracker reads it
(`GetBlockHeaderResult`): height, confirmations (`-1` means the block is
not in the main chain) and the previous block hash (`none` only for the
genesis block of a well-behaved node). -/
structure HeaderInfo where
  height : Nat
  confirmations : Int
  previous_block_hash : Option BlockHash
deriving DecidableEq, Repr

/-- The `BitcoinClient` trait (`src/tracker/src/bitcoin_client.rs`) as a
record of query functions; `none` models a transport error, which the
tracker surfaces as `ClientError`. The wallet-bound operations
(fund/sign/send) are abstracted away in `send_mint_transaction`. -/
structure BitcoinClient where
  chain_info_blocks : Option Nat
  get_block_hash : Nat → Option BlockHash
  get_block_header_info : BlockHash → Option HeaderInfo
  get_block : BlockHash → Option Block

/-- `TrackerError` (`src/tracker/src/index.rs`, lines 273-293), with the
client error payload abstracted. -/
inductive TrackerErr where
  | clientError
  | storageError (e : BidStorageErr)
  | txDoesNotExists (block : BlockHash) (tx : Txid)
  | wrongOutputFormat
  | wrongBagId (tx : Txid) (expected actual : BagId)
deriving DecidableEq, Repr

/-- `is_block_in_main_chain` (`src/tracker/src/index.rs`, lines
262-264). -/
def is_block_in_main_chain (hdr : HeaderInfo) : Bool :=
  hdr.confirmations != -1

/-- `ReorgInfo` (`src/tracker/src/index.rs`, lines 266-271). -/
structure ReorgInfo where
  height_when_fork : Nat
  fork_root : BlockHash
  discarded_blocks : List BlockHash
deriving DecidableEq, Repr

/-- `find_tx` (`src/tracker/src/index.rs`, lines 223-225). -/
def find_tx (block : Block) (txid : Txid) : Option Transaction :=
  block.txdata.find? (fun tx => tx.txid == txid)

/-- `parse_mint_transaction_btc_block` (`src/tracker/src/index.rs`,
lines 227-230): look up the output at the proof's position and apply
the recognizer. -/
def parse_mint_transaction_btc_block (tx : Transaction) (out_pos : Nat) :
    Option BidEntryData :=
  (tx.output.get? out_pos).bind parse_mint_btc_output

/-- The enumerated `filter_map` of
`parse_mint_transaction_btc_block_unknown_pos`
(`src/tracker/src/index.rs`, lines 232-248), compiled to structural
recursion carrying the running output position. -/
def parse_mint_unknown_pos_go (txid : Txid) :
    List TxOut → Nat → List (Outpoint × BidEntryData)
  | [], _ => []
  | out :: rest, i =>
    match parse_mint_btc_output out with
    | some d => (⟨txid, i⟩, d) :: parse_mint_unknown_pos_go txid rest (i + 1)
    | none => parse_mint_unknown_pos_go txid rest (i + 1)

/-- `parse_mint_transaction_btc_block_unknown_pos`: every mint-shaped
output of the transaction with its outpoint, in output order. -/
def parse_mint_transaction_btc_block_unknown_pos (tx : Transaction) :
    List (Outpoint × BidEntryData) :=
  parse_mint_unknown_pos_go tx.txid tx.output 0

/-- `Index::add_bid` (`src/tracker/src/index.rs`, lines 63-97) over a
generic storage: fetch the proof's block and header, locate the
transaction, recognize the output at the claimed position, check the
bag id, then hand the built `BidEntry { amount, proof }` to
`storage.insert_bid`; the local tip advances when the witness block is
higher. The model returns the final `(storage, height, tip)` on
success; claims are stated about results, so the state the Rust code
has already mutated when a late error aborts the call is not carried in
the error. -/
def add_bid {σ : Type} (ops : BidStorage σ) (c : BitcoinClient) (st : σ)
    (current_height : Nat) (current_tip : BlockHash) (proof : BidProof) :
    Except TrackerErr (σ × Nat × BlockHash) :=
  match c.get_block proof.btc_block with
  | none => .error .clientError
  | some block =>
    match c.get_block_header_info proof.btc_block with
    | none => .error .clientError
    | some hdr =>
      match find_tx block proof.tx.outpoint.txid with
      | none => .error (.txDoesNotExists proof.btc_block proof.tx.outpoint.txid)
      | some tx =>
        match parse_mint_transaction_btc_block tx proof.tx.outpoint.out_pos with
        | none => .error .wrongOutputFormat
        | some bid_data =>
          if bid_data.bag_id != proof.tx.bag_id then
            .error (.wrongBagId proof.tx.outpoint.txid proof.tx.bag_id bid_data.bag_id)
          else
            match ops.insert_bid st ⟨bid_data.amount, proof⟩ with
            | .ok st' => .ok (st',
                if hdr.height > current_height then hdr.height else current_height,
                if hdr.height > current_height then proof.btc_block else current_tip)
            | .error e => .error (.storageError e)

/-- The walk-back loop of `Index::check_btc_for_reorgs`
(`src/tracker/src/index.rs`, lines 143-173), with `fuel` bounding the
number of iterations (the Rust loop may not terminate on a cyclic
client). The accumulated `discarded` plays the code's
`discarded_blocks`, and the code's `reorg` flag is exactly
`discarded ≠ []`. The outer `none` is the exhausted fuel or the
`previous_block_hash.unwrap()` panic; the inner `Except` carries the
propagated client error. -/
def check_btc_for_reorgs_go (c : BitcoinClient) :
    Nat → BlockHash → List BlockHash → Option (Except TrackerErr (Option ReorgInfo))
  | 0, _, _ => none
  | fuel + 1, block_hash, discarded =>
    match c.get_block_header_info block_hash with
    | none => some (.error .clientError)
    | some hdr =>
      match is_block_in_main_chain hdr with
      | true =>
        some (.ok (match discarded with
          | [] => none
          | _ :: _ => some ⟨hdr.height, block_hash, discarded⟩))
      | false =>
        match hdr.previous_block_hash with
        | none => none
        | some prev => check_btc_for_reorgs_go c fuel prev (discarded ++ [block_hash])

/-- `Index::check_btc_for_reorgs`: start the walk at the current tip
with no discarded blocks. -/
def check_btc_for_reorgs (c : BitcoinClient) (fuel : Nat) (current_tip : BlockHash) :
    Option (Except TrackerErr (Option ReorgInfo)) :=
  check_btc_for_reorgs_go c fuel current_tip []

/-- `Index::remove_btc_blocks_when_fork` (`src/tracker/src/index.rs`,
lines 119-130): demote every discarded block via
`remove_with_block_hash`, swallowing `BagDoesNotExists`. -/
def remove_btc_blocks_when_fork {σ : Type} (ops : BidStorage σ) :
    σ → List BlockHash → Except BidStorageErr σ
  | st, [] => .ok st
  | st, b :: rest =>
    match ops.remove_with_block_hash st b with
    | .ok st' => remove_btc_blocks_when_fork ops st' rest
    | .error (.bagDoesNotExists _) => remove_btc_blocks_when_fork ops st rest
    | .error e => .error e

/-- `Index::check_btc_block_with_hash` (`src/tracker/src/index.rs`,
lines 187-220): fetch the block; for each transaction take the first
mint-shaped output whose bag the storage knows
(`is_bag_exists(..).unwrap_or(false)`) and build its `BidEntry`. -/
def check_btc_block_with_hash {σ : Type} (ops : BidStorage σ) (c : BitcoinClient)
    (st : σ) (hash : BlockHash) : Option (List BidEntry) :=
  (c.get_block hash).map (fun block =>
    block.txdata.filterMap (fun tx =>
      (((parse_mint_transaction_btc_block_unknown_pos tx).filter (fun pd =>
          match ops.is_bag_exists st pd.2.bag_id with
          | .ok b => b
          | .error _ => false)).head?).map
        (fun pd => (⟨pd.2.amount, ⟨hash, ⟨pd.1, pd.2.bag_id⟩⟩⟩ : BidEntry))))

/-- The `update_bid` collection loop of `Index::add_btc_block_to_index`
(`src/tracker/src/index.rs`, lines 175-185): `BagDoesNotExists` is
swallowed, any other storage error aborts. -/
def update_bids {σ : Type} (ops : BidStorage σ) :
    σ → List BidEntry → Except BidStorageErr σ
  | st, [] => .ok st
  | st, bid :: rest =>
    match ops.update_bid st bid with
    | .ok st' => update_bids ops st' rest
    | .error (.bagDoesNotExists _) => update_bids ops st rest
    | .error e => .error e

/-- `Index::add_btc_block_to_index`: scan the block, then push each
found entry through `update_bid`. -/
def add_btc_block_to_index {σ : Type} (ops : BidStorage σ) (c : BitcoinClient)
    (st : σ) (hash : BlockHash) : Except TrackerErr σ :=
  match check_btc_block_with_hash ops c st hash with
  | none => .error .clientError
  | some entries =>
    match update_bids ops st entries with
    | .ok st' => .ok st'
    | .error e => .error (.storageError e)

/-- The height loop of `Index::add_btc_blocks`
(`src/tracker/src/index.rs`, lines 132-141): for each height fetch the
canonical hash, index the block, then set
`(current_height, current_tip)`. -/
def add_btc_blocks_go {σ : Type} (ops : BidStorage σ) (c : BitcoinClient) :
    σ → Nat → BlockHash → List Nat → Except TrackerErr (σ × Nat × BlockHash)
  | st, height, tip, [] => .ok (st, height, tip)
  | st, height, tip, i :: rest =>
    match c.get_block_hash i with
    | none => .error .clientError
    | some hash =>
      match add_btc_block_to_index ops c st hash with
      | .error e => .error e
      | .ok st' => add_btc_blocks_go ops c st' i hash rest

/-- `Index::add_btc_blocks`: the Rust `for index in old_height+1 ..=
new_height` loop; the range is empty when `new_height ≤ old_height`. -/
def add_btc_blocks {σ : Type} (ops : BidStorage σ) (c : BitcoinClient)
    (st : σ) (old_height : Nat) (tip : BlockHash) (new_height : Nat) :
    Except TrackerErr (σ × Nat × BlockHash) :=
  add_btc_blocks_go ops c st old_height tip
    (List.range' (old_height + 1) (new_height - old_height))

/-- `Index::check_reorgs` (`src/tracker/src/index.rs`, lines 100-117):
read `chain_info().blocks`, run the walk-back, on a reorg demote the
discarded blocks and reset `(height, tip)` to the fork root, then
advance from the current height to the new chain height. Outer `none`
is a panic or exhausted fuel in the walk. -/
def check_reorgs {σ : Type} (ops : BidStorage σ) (c : BitcoinClient) (fuel : Nat)
    (st : σ) (current_height : Nat) (current_tip : BlockHash) :
    Option (Except TrackerErr (Option ReorgInfo × σ × Nat × BlockHash)) :=
  match c.chain_info_blocks with
  | none => some (.error .clientError)
  | some new_height =>
    match check_btc_for_reorgs c fuel current_tip with
    | none => none
    | some (.error e) => some (.error e)
    | some (.ok oreorg) =>
      let postFork : Except TrackerErr (σ × Nat × BlockHash) :=
        match oreorg with
        | none => .ok (st, current_height, current_tip)
        | some reorg =>
          match remove_btc_blocks_when_fork ops st reorg.discarded_blocks with
          | .error e => .error (.storageError e)
          | .ok st' => .ok (st', reorg.height_when_fork, reorg.fork_root)
      some (
        match postFork with
        | .error e => .error e
        | .ok (st', h', t') =>
          match add_btc_blocks ops c st' h' t' new_height with
          | .error e => .error e
          | .ok (st'', h'', t'') => .ok (oreorg, st'', h'', t''))

/-- The walk-back relation: `Walk c start ds root` holds when following
`previous_block_hash` links from `start`, every block in `ds` (listed
newest-first, `start` first) has `confirmations = -1`, and `root` is
the nearest block reached with `confirmations ≠ -1`. -/
inductive Walk (c : BitcoinClient) : BlockHash → List BlockHash → BlockHash → Prop
  | found (h : BlockHash) (hdr : HeaderInfo) :
      c.get_block_header_info h = some hdr →
      hdr.confirmations ≠ -1 →
      Walk c h [] h
  | step (h : BlockHash) (hdr : HeaderInfo) (p : BlockHash) (ds : List BlockHash)
      (root : BlockHash) :
      c.get_block_header_info h = some hdr →
      hdr.confirmations = -1 →
      hdr.previous_block_hash = some p →
      Walk c p ds root →
      Walk c h (h :: ds) root

/-- A three-block client for exercising the walk-back: hash 2 (height
7) and hash 1 (height 6) are orphaned, hash 0 (height 5) is on the main
chain. -/
def reorg_client : BitcoinClient where
  chain_info_blocks := some 5
  get_block_hash := fun _ => none
  get_block_header_info := fun h =>
    if h = 2 then some ⟨7, -1, some 1⟩
    else if h = 1 then some ⟨6, -1, some 0⟩
    else if h = 0 then some ⟨5, 1, none⟩
    else none
  get_block := fun _ => none

/-- A client whose chain height (0) is below the tracker height used
with it, while the tracker's tip (hash 7, height 5) is still reported
as being in the main chain. -/
def shrink_client : BitcoinClient where
  chain_info_blocks := some 0
  get_block_hash := fun h => if h = 0 then some 90 else none
  get_block_header_info := fun h => if h = 7 then some ⟨5, 1, none⟩ else none
  get_block := fun _ => none

/-- A client one block ahead of a tracker at height 0 / tip 100: height
1 is hash 101, an empty block. -/
def advance_client : BitcoinClient where
  chain_info_blocks := some 1
  get_block_hash := fun h => if h = 1 then some 101 else none
  get_block_header_info := fun h => if h = 100 then some ⟨0, 1, none⟩ else none
  get_block := fun h => if h = 101 then some (⟨[]⟩ : Block) else none

/-- The single transaction of `bid_block`: txid 9, one mint output of
value 10 carrying `bag_one`. -/
def bid_tx_one : Transaction := ⟨9, [⟨10, new_v0_wsh bag_one⟩]⟩

/-- The block (hash 50) containing `bid_tx_one`. -/
def bid_block : Block := ⟨[bid_tx_one]⟩

/-- A client serving `bid_block` at hash 50, height 1. -/
def bid_client : BitcoinClient where
  chain_info_blocks := none
  get_block_hash := fun _ => none
  get_block_header_info := fun h => if h = 50 then some ⟨1, 1, some 0⟩ else none
  get_block := fun h => if h = 50 then some bid_block else none

/-- A valid bid proof for `bid_tx_one` in block 50. -/
def proof_one : BidProof := ⟨50, ⟨⟨9, 0⟩, bag_one⟩⟩

theorem is_v0_p2wsh_iff (s : List Nat) :
    is_v0_p2wsh s = true ↔ s.length = 34 ∧ s.take 2 = [0x00, 0x20] := by
  simp [is_v0_p2wsh]

/-- C7: the mint recognizer returns `some` exactly on 34-byte scripts
beginning `0x00 0x20`, in which case the bag id is bytes `2..34` and the
amount is the output's value; every other script yields `none`, with no
other failure mode (the function is total into `Option`). -/
theorem parse_mint_btc_output_spec (out : TxOut) :
    ((∃ d, parse_mint_btc_output out = some d) ↔
      (out.script_pubkey.length = 34 ∧ out.script_pubkey.take 2 = [0x00, 0x20])) ∧
    (∀ d, parse_mint_btc_output out = some d →
      d = ⟨(out.script_pubkey.drop 2).take 32, out.value⟩) := by
  constructor
  · constructor
    · intro ⟨d, hd⟩
      unfold parse_mint_btc_output at hd
      rcases h : is_v0_p2wsh out.script_pubkey with _ | _
      · rw [h] at hd; exact absurd hd (by simp)
      · exact (is_v0_p2wsh_iff _).mp h
    · intro h
      refine ⟨⟨(out.script_pubkey.drop 2).take 32, out.value⟩, ?_⟩
      unfold parse_mint_btc_output
      rw [(is_v0_p2wsh_iff _).mpr h]
  · intro d hd
    unfold parse_mint_btc_output at hd
    rcases h : is_v0_p2wsh out.script_pubkey with _ | _
    · rw [h] at hd; exact absurd hd (by simp)
    · rw [h] at hd
      exact (Option.some_inj.mp hd).symm

/-- An OP_RETURN-led script (first byte `0x6a`) is rejected: the first
byte is not the v0 witness version opcode, so the recognizer returns
`none` (spec scenario S5 at a concrete instance). -/
theorem parse_mint_btc_output_op_return_rejected :
    parse_mint_btc_output ⟨7, 0x6a :: 0x20 :: List.replicate 32 3⟩ = none := by
  decide

/-- C8: codec round-trip. For every 32-byte bag id `b` and every value
`v`, the recognizer applied to an output whose script the writer
produced returns exactly `some (b, v)`. -/
theorem mint_codec_round_trip (b : List Nat) (v : Nat) (hb : b.length = 32) :
    parse_mint_btc_output ⟨v, new_v0_wsh b⟩ = some ⟨b, v⟩ := by
  unfold parse_mint_btc_output new_v0_wsh
  have hlen : is_v0_p2wsh (0x00 :: 0x20 :: b) = true := by
    simp [is_v0_p2wsh, hb]
  rw [hlen]
  simp [List.take_of_length_le, hb.le]

/-- Witness for C8 at the concrete bag id `[7, 7, ..., 7]` (32 bytes)
and value 5000. -/
theorem mint_codec_round_trip_witness :
    parse_mint_btc_output ⟨5000, new_v0_wsh (List.replicate 32 7)⟩ =
      some ⟨List.replicate 32 7, 5000⟩ :=
  mint_codec_round_trip (List.replicate 32 7) 5000 (by decide)

theorem find_out_pos_go_none (bag : BagId) :
    ∀ (outs : List TxOut) (i : Nat),
      find_out_pos_go bag outs i = none ↔
        ∀ out ∈ outs, is_mint_output_for bag out = false := by
  intro outs
  induction outs with
  | nil => intro i; simp [find_out_pos_go]
  | cons out rest ih =>
    intro i
    rcases h : is_mint_output_for bag out with _ | _
    · simp [find_out_pos_go, h, ih (i + 1)]
    · simp [find_out_pos_go, h]

theorem find_out_pos_go_some (bag : BagId) :
    ∀ (outs : List TxOut) (i j : Nat),
      find_out_pos_go bag outs i = some j →
        ∃ k, j = i + k ∧ k < outs.length ∧
          is_mint_output_for bag (outs.getD k ⟨0, []⟩) = true ∧
          ∀ m, m < k → is_mint_output_for bag (outs.getD m ⟨0, []⟩) = false := by
  intro outs
  induction outs with
  | nil => intro i j h; exact absurd h (by simp [find_out_pos_go])
  | cons out rest ih =>
    intro i j h
    rcases hm : is_mint_output_for bag out with _ | _
    · rw [find_out_pos_go, hm] at h
      obtain ⟨k, hk, hlt, hmint, hmin⟩ := ih (i + 1) j h
      refine ⟨k + 1, by omega, by simpa using hlt, by simpa using hmint, ?_⟩
      intro m hmk
      cases m with
      | zero => simpa using hm
      | succ m => exact (by simpa using hmin m (by omega))
    · rw [find_out_pos_go, hm] at h
      have hj : j = i := (Option.some_inj.mp h).symm
      exact ⟨0, by omega, by simp, by simpa using hm, by intro m hm0; omega⟩

/-- C10: the mint builder's output-position search is partial. When the
signed transaction has an output whose script is the v0-P2WSH push of
the bag id, `send_mint_transaction` returns the `BidTx` whose outpoint
position is the earliest such output; when no output matches, the search
yields `none` — the point at which the Rust code panics on `unwrap`
instead of returning an error. -/
theorem send_mint_transaction_spec (txid : Txid) (signed : Transaction) (bag : BagId) :
    (send_mint_transaction txid signed bag = none ↔
      ∀ out ∈ signed.output, is_mint_output_for bag out = false) ∧
    (∀ bt, send_mint_transaction txid signed bag = some bt →
      bt.bag_id = bag ∧ bt.outpoint.txid = txid ∧
      bt.outpoint.out_pos < signed.output.length ∧
      is_mint_output_for bag (signed.output.getD bt.outpoint.out_pos ⟨0, []⟩) = true ∧
      ∀ m, m < bt.outpoint.out_pos →
        is_mint_output_for bag (signed.output.getD m ⟨0, []⟩) = false) := by
  constructor
  · rw [show (send_mint_transaction txid signed bag = none ↔
        find_out_pos_mint_tx signed bag = none) from by
      simp [send_mint_transaction]]
    exact find_out_pos_go_none bag signed.output 0
  · intro bt hbt
    unfold send_mint_transaction at hbt
    rcases hf : find_out_pos_mint_tx signed bag with _ | pos
    · rw [hf] at hbt; exact absurd hbt (by simp)
    · rw [hf] at hbt
      obtain ⟨k, hk, hlt, hmint, hmin⟩ := find_out_pos_go_some bag signed.output 0 pos hf
      have hbt' : bt = ⟨⟨txid, pos⟩, bag⟩ := by simpa using hbt.symm
      subst hbt'
      refine ⟨rfl, rfl, ?_, ?_, ?_⟩
      · simpa [hk] using hlt
      · simpa [hk] using hmint
      · intro m hm
        have hm' : m < pos := hm
        exact hmin m (by omega)

theorem alookup_upsert {κ β : Type} [BEq κ] [LawfulBEq κ]
    (l : List (κ × β)) (k : κ) (v : β) (k' : κ) :
    alookup (alistUpsert l k v) k' = if k' == k then some v else alookup l k' := by
  induction l with
  | nil =>
    by_cases h : k' = k
    · simp [alistUpsert, alookup, h]
    · simp [alistUpsert, alookup, h, Ne.symm h]
  | cons p rest ih =>
    by_cases hpk : p.1 = k
    · by_cases h : k' = k
      · simp [alistUpsert, alookup, hpk, h]
      · simp [alistUpsert, alookup, hpk, h, Ne.symm h]
    · by_cases hpk' : p.1 = k'
      · have h : ¬ k' = k := fun he => hpk (hpk'.trans he)
        simp [alistUpsert, alookup, hpk, hpk', h]
      · simp [alistUpsert, alookup, hpk, hpk', ih]

theorem alookup_filter_out {κ β : Type} [BEq κ] [LawfulBEq κ]
    (l : List (κ × β)) (k k' : κ) :
    alookup (l.filter (fun p => ! (p.1 == k))) k' =
      if k' == k then none else alookup l k' := by
  induction l with
  | nil => simp [alookup]
  | cons p rest ih =>
    by_cases hpk : p.1 = k
    · have hf : List.filter (fun q => ! (q.1 == k)) (p :: rest) =
          List.filter (fun q => ! (q.1 == k)) rest := by
        simp [List.filter_cons, hpk]
      rw [hf, ih]
      by_cases h : k' = k
      · simp [h]
      · have hpk' : ¬ p.1 = k' := fun he => h (he.symm.trans hpk)
        simp [alookup, h, hpk']
    · have hf : List.filter (fun q => ! (q.1 == k)) (p :: rest) =
          p :: List.filter (fun q => ! (q.1 == k)) rest := by
        simp [List.filter_cons, hpk]
      rw [hf]
      by_cases hpk' : p.1 = k'
      · have h : ¬ k' = k := fun he => hpk (hpk'.trans he)
        simp [alookup, hpk', h]
      · simp [alookup, hpk', ih]

theorem filter_block_same (rows : SqliteIndexStorage) (h : BlockHash) :
    (rows.filter (fun r => ! (r.block == some h))).filter
        (fun r => r.block == some h) = [] := by
  induction rows with
  | nil => rfl
  | cons r rest ih =>
    by_cases hr : r.block = some h
    · simp [List.filter_cons, hr, ih]
    · simp [List.filter_cons, hr, ih]

theorem filter_block_other (rows : SqliteIndexStorage) (h h' : BlockHash)
    (hne : ¬ h' = h) :
    (rows.filter (fun r => ! (r.block == some h))).filter
        (fun r => r.block == some h') =
      rows.filter (fun r => r.block == some h') := by
  induction rows with
  | nil => rfl
  | cons r rest ih =>
    by_cases hr : r.block = some h
    · have hr' : ¬ r.block = some h' := by
        rw [hr]; intro he
        exact hne (Option.some_inj.mp he).symm
      simp [List.filter_cons, hr, hr', ih, Ne.symm hne]
    · by_cases hr' : r.block = some h'
      · simp [List.filter_cons, hr, hr', ih, hne]
      · simp [List.filter_cons, hr, hr', ih]

/-- C1 (amended): `remove_with_block_hash(h)` deletes outright. In the
memory implementation the whole confirmed entry for block `h`
disappears, every other block's entry and the unconfirmed set are
untouched, and nothing is demoted to unconfirmed; in the sqlite
implementation exactly the rows with `block = h` are deleted, so a
subsequent `get_records_by_block_hash(h)` returns the empty list while
other blocks' results are unchanged. Neither implementation ever fails,
matching the claim's never-fails part. -/
theorem remove_with_block_hash_deletes (s : MemoryIndexStorage)
    (rows : SqliteIndexStorage) (h : BlockHash) :
    (∃ s', mem_remove_with_block_hash s h = .ok s' ∧
      s'.unconfirmed = s.unconfirmed ∧
      ∀ h', alookup s'.confirmed h' =
        if h' == h then none else alookup s.confirmed h') ∧
    (∃ rows', sql_remove_with_block_hash rows h = .ok rows' ∧
      sql_get_records_by_block_hash rows' h = .ok [] ∧
      ∀ h', sql_get_records_by_block_hash rows' h' =
        if h' == h then .ok [] else sql_get_records_by_block_hash rows h') := by
  constructor
  · refine ⟨⟨s.confirmed.filter (fun p => ! (p.1 == h)), s.unconfirmed⟩, rfl, rfl, ?_⟩
    intro h'
    exact alookup_filter_out s.confirmed h h'
  · refine ⟨rows.filter (fun r => ! (r.block == some h)), rfl, ?_, ?_⟩
    · unfold sql_get_records_by_block_hash
      rw [filter_block_same rows h]
      rfl
    · intro h'
      by_cases he : h' = h
      · subst he
        simp only [beq_self_eq_true, if_true]
        unfold sql_get_records_by_block_hash
        rw [filter_block_same rows h']
        rfl
      · have : (h' == h) = false := by simp [he]
        rw [this]
        simp only [Bool.false_eq_true, if_false]
        unfold sql_get_records_by_block_hash
        rw [filter_block_other rows h h' he]

/-- C1 counterexample: a bag confirmed in block 5 and nowhere else. The
claim says `remove_confirmation_with_block_hash(5)` demotes it to
unconfirmed and `is_bag_exists` stays true; in the code the entry is
deleted and the bag no longer exists in either implementation. -/
theorem remove_with_block_hash_no_demotion_cex :
    mem_is_bag_exists mem_with_entry_one bag_one = .ok true ∧
    mem_remove_with_block_hash mem_with_entry_one 5 = .ok ⟨[], []⟩ ∧
    mem_is_bag_exists ⟨[], []⟩ bag_one = .ok false ∧
    sql_remove_with_block_hash [rowOfEntry entry_one] 5 = .ok [] ∧
    sql_is_bag_exists [] bag_one = .ok false := by
  refine ⟨?_, ?_, ?_, ?_, ?_⟩ <;> rfl

/-- C3 (amended): `insert_bid(entry)` never fails — the storage error
type has no `BagAlreadyExists` variant. The memory implementation
upserts the entry under its block (replacing only the same
`(block, bag)` slot and leaving everything else, including any entry
for the same bag under another block); the sqlite implementation
appends a new row unconditionally, even when an entry for the bag id
already exists. -/
theorem insert_bid_never_fails (s : MemoryIndexStorage)
    (rows : SqliteIndexStorage) (record : BidEntry) :
    (∃ s', mem_insert_bid s record = .ok s' ∧
      s'.unconfirmed = s.unconfirmed ∧
      ∀ blk bag, mem_confirmed_lookup s' blk bag =
        if blk == record.proof.btc_block && bag == record.proof.tx.bag_id then
          some record
        else mem_confirmed_lookup s blk bag) ∧
    sql_insert_bid rows record = .ok (rows ++ [rowOfEntry record]) := by
  constructor
  · refine ⟨_, rfl, rfl, ?_⟩
    intro blk bag
    unfold mem_confirmed_lookup
    simp only
    rw [alookup_upsert]
    by_cases hb : blk = record.proof.btc_block
    · subst hb
      simp only [beq_self_eq_true, if_true, Bool.true_and, Option.some_bind]
      rw [alookup_upsert]
      by_cases hg : bag = record.proof.tx.bag_id
      · simp [hg]
      · have hgf : (bag == record.proof.tx.bag_id) = false := by simp [hg]
        rw [hgf]
        simp only [Bool.false_eq_true, if_false]
        cases hl : alookup s.confirmed record.proof.btc_block with
        | none => simp [hl, alookup]
        | some inner => simp [hl]
    · have hbf : (blk == record.proof.btc_block) = false := by simp [hb]
      simp [hbf]
  · rfl

/-- C3 counterexample: an entry for `bag_one` already exists, yet
`insert_bid` succeeds in both implementations (the memory store
overwrites in place, the sqlite store duplicates the row); it does not
fail with any error, let alone `BagAlreadyExists`. -/
theorem insert_bid_no_bag_already_exists_cex :
    mem_is_bag_exists mem_with_entry_one bag_one = .ok true ∧
    mem_insert_bid mem_with_entry_one entry_one = .ok mem_with_entry_one ∧
    sql_is_bag_exists [rowOfEntry entry_one] bag_one = .ok true ∧
    sql_insert_bid [rowOfEntry entry_one] entry_one =
      .ok [rowOfEntry entry_one, rowOfEntry entry_one] := by
  refine ⟨?_, ?_, ?_, ?_⟩ <;> rfl

/-- C6 (amended): `insert_unconfirmed(bag)` records the bag and never
fails. The memory implementation is idempotent — a second identical
call returns the same state. The sqlite implementation appends a fresh
all-NULL row on every call, so repeated calls accumulate duplicate
entries for the bag id instead of being a no-op. -/
theorem insert_unconfirmed_mem_idempotent_sql_appends (s : MemoryIndexStorage)
    (rows : SqliteIndexStorage) (bag : BagId) :
    (∃ s', mem_insert_unconfirmed_bag s bag = .ok s' ∧
      mem_insert_unconfirmed_bag s' bag = .ok s' ∧
      s'.confirmed = s.confirmed ∧ bag ∈ s'.unconfirmed) ∧
    sql_insert_unconfirmed_bag rows bag = .ok (rows ++ [⟨none, none, none, bag, none⟩]) := by
  constructor
  · by_cases hm : bag ∈ s.unconfirmed
    · refine ⟨s, ?_, ?_, rfl, hm⟩
      · simp [mem_insert_unconfirmed_bag, hm]
      · simp [mem_insert_unconfirmed_bag, hm]
    · refine ⟨⟨s.confirmed, s.unconfirmed ++ [bag]⟩, ?_, ?_, rfl, ?_⟩
      · simp [mem_insert_unconfirmed_bag, hm]
      · simp [mem_insert_unconfirmed_bag]
      · simp
  · rfl

/-- C6 counterexample: calling sqlite `insert_unconfirmed_bag` twice is
observably different from calling it once — after `update_bid` promotes
the bag, `get_records_by_block_hash` reports its record twice. So the
operation is not idempotent and storage holds two entries for one bag
id. -/
theorem insert_unconfirmed_not_idempotent_cex :
    sql_insert_unconfirmed_bag [] bag_two = .ok [null_row_two] ∧
    sql_insert_unconfirmed_bag [null_row_two] bag_two =
      .ok [null_row_two, null_row_two] ∧
    sql_update_bid [null_row_two] entry_two = .ok [row_two] ∧
    sql_update_bid [null_row_two, null_row_two] entry_two = .ok [row_two, row_two] ∧
    sql_get_records_by_block_hash [row_two] 8 = .ok [entry_two] ∧
    sql_get_records_by_block_hash [row_two, row_two] 8 = .ok [entry_two, entry_two] ∧
    ([entry_two, entry_two] : List BidEntry) ≠ [entry_two] := by
  refine ⟨?_, ?_, ?_, ?_, ?_, ?_, ?_⟩
  · rfl
  · rfl
  · rfl
  · rfl
  · rfl
  · rfl
  · decide

/-- C9: the two storage implementations diverge on
`get_records_by_block_hash` for a hash with no confirmed entry: the
memory implementation hits `.unwrap()` on `None` and panics (modelled
as `none`), while the sqlite implementation returns `Ok` of the empty
list. The storage contract requires the same observable outcome. -/
theorem get_records_absent_hash_divergence (s : MemoryIndexStorage)
    (rows : SqliteIndexStorage) (h : BlockHash)
    (hmem : alookup s.confirmed h = none)
    (hsql : rows.filter (fun r => r.block == some h) = []) :
    mem_get_records_by_block_hash s h = none ∧
    sql_get_records_by_block_hash rows h = .ok [] := by
  constructor
  · unfold mem_get_records_by_block_hash
    rw [hmem]
    rfl
  · unfold sql_get_records_by_block_hash
    rw [hsql]
    rfl

/-- Witness for C9 at the concrete input: both storages empty, hash 0. -/
theorem get_records_absent_hash_divergence_witness :
    mem_get_records_by_block_hash ⟨[], []⟩ 0 = none ∧
    sql_get_records_by_block_hash [] 0 = .ok [] :=
  get_records_absent_hash_divergence ⟨[], []⟩ [] 0 rfl rfl

/-- C2 (amended): after the proof passes validation (block found,
header found, transaction found, output mint-shaped, bag id matches),
`add_bid` hands the built `BidEntry { amount, proof }` to
`storage.insert_bid` — not `update_bid` — and returns its outcome, with
the tip advanced when the witness block is higher. Consequently, with
the in-memory storage (whose `insert_bid` always succeeds) `add_bid`
succeeds even when the bag id was never registered: no
`BagDoesNotExist` is surfaced. -/
theorem add_bid_uses_insert_bid {σ : Type} (ops : BidStorage σ) (c : BitcoinClient)
    (st : σ) (height : Nat) (tip : BlockHash) (proof : BidProof)
    (block : Block) (hdr : HeaderInfo) (tx : Transaction) (d : BidEntryData)
    (hblock : c.get_block proof.btc_block = some block)
    (hhdr : c.get_block_header_info proof.btc_block = some hdr)
    (htx : find_tx block proof.tx.outpoint.txid = some tx)
    (hparse : parse_mint_transaction_btc_block tx proof.tx.outpoint.out_pos = some d)
    (hbag : d.bag_id = proof.tx.bag_id) :
    (add_bid ops c st height tip proof =
      match ops.insert_bid st ⟨d.amount, proof⟩ with
      | .ok st' => .ok (st',
          if hdr.height > height then hdr.height else height,
          if hdr.height > height then proof.btc_block else tip)
      | .error e => .error (.storageError e)) ∧
    (∀ ms : MemoryIndexStorage, ∃ ms',
      add_bid memStorage c ms height tip proof = .ok (ms',
        if hdr.height > height then hdr.height else height,
        if hdr.height > height then proof.btc_block else tip)) := by
  have key : ∀ (τ : Type) (o : BidStorage τ) (s : τ),
      add_bid o c s height tip proof =
        match o.insert_bid s ⟨d.amount, proof⟩ with
        | .ok st' => .ok (st',
            if hdr.height > height then hdr.height else height,
            if hdr.height > height then proof.btc_block else tip)
        | .error e => .error (.storageError e) := by
    intro τ o s
    unfold add_bid
    simp only [hblock, hhdr, htx, hparse, hbag, bne_self_eq_false,
      Bool.false_eq_true, if_false]
  refine ⟨key σ ops st, ?_⟩
  intro ms
  refine ⟨⟨alistUpsert ms.confirmed proof.btc_block
      (alistUpsert ((alookup ms.confirmed proof.btc_block).getD [])
        proof.tx.bag_id ⟨d.amount, proof⟩), ms.unconfirmed⟩, ?_⟩
  rw [key MemoryIndexStorage memStorage ms]
  rfl

/-- Witness for C2 at the concrete client `bid_client` and proof
`proof_one` over empty memory storage. -/
theorem add_bid_uses_insert_bid_witness :
    add_bid memStorage bid_client ⟨[], []⟩ 0 40 proof_one =
      .ok (⟨[(50, [(bag_one, ⟨10, proof_one⟩)])], []⟩, 1, 50) :=
  (add_bid_uses_insert_bid memStorage bid_client ⟨[], []⟩ 0 40 proof_one
      bid_block ⟨1, 1, some 0⟩ bid_tx_one ⟨bag_one, 10⟩ rfl rfl rfl rfl rfl).1

/-- C2 counterexample: `bag_one` was never registered
(`is_bag_exists = false` on the empty storage), the proof is valid, yet
`add_bid` succeeds — it does not fail with `BagDoesNotExist` as the
claim states. -/
theorem add_bid_unregistered_bag_succeeds_cex :
    mem_is_bag_exists ⟨[], []⟩ bag_one = .ok false ∧
    add_bid memStorage bid_client ⟨[], []⟩ 0 40 proof_one =
      .ok (⟨[(50, [(bag_one, ⟨10, proof_one⟩)])], []⟩, 1, 50) :=
  ⟨rfl, rfl⟩

theorem check_btc_for_reorgs_go_spec (c : BitcoinClient) :
    ∀ (fuel : Nat) (hash : BlockHash) (acc : List BlockHash) (res : Option ReorgInfo),
      check_btc_for_reorgs_go c fuel hash acc = some (.ok res) →
      ∃ ds root rootHdr, Walk c hash ds root ∧
        c.get_block_header_info root = some rootHdr ∧
        rootHdr.confirmations ≠ -1 ∧
        res = (match acc ++ ds with
          | [] => none
          | _ :: _ => some ⟨rootHdr.height, root, acc ++ ds⟩) := by
  intro fuel
  induction fuel with
  | zero =>
    intro hash acc res h
    simp [check_btc_for_reorgs_go] at h
  | succ fuel ih =>
    intro hash acc res h
    rw [check_btc_for_reorgs_go] at h
    split at h
    · simp at h
    · rename_i hdr hh
      split at h
      · rename_i hm
        simp [is_block_in_main_chain] at hm
        simp only [Option.some.injEq, Except.ok.injEq] at h
        refine ⟨[], hash, hdr, Walk.found hash hdr hh hm, hh, hm, ?_⟩
        simp only [List.append_nil]
        exact h.symm
      · rename_i hm
        simp [is_block_in_main_chain] at hm
        split at h
        · simp at h
        · rename_i p hp
          obtain ⟨ds, root, rootHdr, hw, hroot, hconf, hres⟩ := ih p (acc ++ [hash]) res h
          refine ⟨hash :: ds, root, rootHdr,
            Walk.step hash hdr p ds root hh hm hp hw, hroot, hconf, ?_⟩
          simpa [List.append_assoc] using hres

/-- C4: whenever the walk back from the current tip terminates without
a client error or panic, a reorg is detected exactly when the tip's
header has `confirmations = -1`; in that case the produced `ReorgInfo`
has as `fork_root` the nearest ancestor whose header has
`confirmations ≠ -1`, as `height_when_fork` that ancestor's height, and
as `discarded_blocks` exactly the orphaned hashes walked over,
newest-first (the `Walk` relation records the walked prev-chain in
order, tip first, all with `confirmations = -1`). -/
theorem check_btc_for_reorgs_spec (c : BitcoinClient) (fuel : Nat) (tip : BlockHash)
    (res : Option ReorgInfo)
    (hrun : check_btc_for_reorgs c fuel tip = some (.ok res)) :
    ∃ hdr0, c.get_block_header_info tip = some hdr0 ∧
      (res.isSome ↔ hdr0.confirmations = -1) ∧
      ∀ info, res = some info →
        ∃ rootHdr, Walk c tip info.discarded_blocks info.fork_root ∧
          c.get_block_header_info info.fork_root = some rootHdr ∧
          rootHdr.confirmations ≠ -1 ∧
          info.height_when_fork = rootHdr.height ∧
          info.discarded_blocks ≠ [] := by
  obtain ⟨ds, root, rootHdr, hwalk, hroot, hconf, hres⟩ :=
    check_btc_for_reorgs_go_spec c fuel tip [] res hrun
  cases hwalk with
  | found h hdr hh hc =>
    simp only [List.nil_append] at hres
    subst hres
    refine ⟨rootHdr, hroot, ?_, ?_⟩
    · simp [hconf]
    · intro info hinfo
      simp at hinfo
  | step h hdr p ds' root' hh hc hp hw =>
    simp only [List.nil_append] at hres
    subst hres
    refine ⟨hdr, hh, ?_, ?_⟩
    · simp [hc]
    · intro info hinfo
      have : info = ⟨rootHdr.height, root, tip :: ds'⟩ := (Option.some_inj.mp hinfo).symm
      subst this
      exact ⟨rootHdr, Walk.step tip hdr p ds' root hh hc hp hw, hroot, hconf, rfl, by simp⟩

/-- Witness for C4 at `reorg_client`: the walk from tip 2 discards the
orphans 2 and 1 (newest-first) and stops at fork root 0, height 5. -/
theorem check_btc_for_reorgs_spec_witness :
    ∃ hdr0, reorg_client.get_block_header_info 2 = some hdr0 ∧
      ((some (⟨5, 0, [2, 1]⟩ : ReorgInfo)).isSome ↔ hdr0.confirmations = -1) ∧
      ∀ info, some (⟨5, 0, [2, 1]⟩ : ReorgInfo) = some info →
        ∃ rootHdr, Walk reorg_client 2 info.discarded_blocks info.fork_root ∧
          reorg_client.get_block_header_info info.fork_root = some rootHdr ∧
          rootHdr.confirmations ≠ -1 ∧
          info.height_when_fork = rootHdr.height ∧
          info.discarded_blocks ≠ [] :=
  check_btc_for_reorgs_spec reorg_client 10 2 (some ⟨5, 0, [2, 1]⟩) rfl

theorem add_btc_blocks_go_spec {σ : Type} (ops : BidStorage σ) (c : BitcoinClient) :
    ∀ (cnt start : Nat) (st : σ) (height : Nat) (tip : BlockHash)
      (st' : σ) (h' : Nat) (t' : BlockHash),
      add_btc_blocks_go ops c st height tip (List.range' start cnt) = .ok (st', h', t') →
      (cnt = 0 ∧ st' = st ∧ h' = height ∧ t' = tip) ∨
      (0 < cnt ∧ h' = start + cnt - 1 ∧ c.get_block_hash h' = some t') := by
  intro cnt
  induction cnt with
  | zero =>
    intro start st height tip st' h' t' h
    simp only [List.range', add_btc_blocks_go, Except.ok.injEq, Prod.mk.injEq] at h
    exact Or.inl ⟨rfl, h.1.symm, h.2.1.symm, h.2.2.symm⟩
  | succ n ih =>
    intro start st height tip st' h' t' h
    rw [show List.range' start (n + 1) = start :: List.range' (start + 1) n from rfl] at h
    rw [add_btc_blocks_go] at h
    split at h
    · simp at h
    · rename_i hash hbh
      split at h
      · simp at h
      · rename_i st2 hadd
        rcases ih (start + 1) st2 start hash st' h' t' h with
          ⟨hn, hst, hh, ht⟩ | ⟨hpos, hh, hbh'⟩
        · refine Or.inr ⟨Nat.succ_pos n, by omega, ?_⟩
          rw [hh, ht, hbh]
        · exact Or.inr ⟨Nat.succ_pos n, by omega, hbh'⟩

/-- C5 (amended): on the non-reorg path, provided the chain height
reported at the start of the call is strictly above the tracker's
`current_height`, a successful `check_reorgs()` leaves `current_height`
equal to `chain_info().blocks` and `current_tip` equal to
`client.block_hash(current_height)`. (When the reported height is not
above `current_height` the advance loop is empty and the old height is
kept — the counterexample.) -/
theorem check_reorgs_advances {σ : Type} (ops : BidStorage σ) (c : BitcoinClient)
    (fuel : Nat) (st : σ) (height : Nat) (tip : BlockHash) (new_height : Nat)
    (st' : σ) (h' : Nat) (t' : BlockHash)
    (hinfo : c.chain_info_blocks = some new_height)
    (hgt : height < new_height)
    (hrun : check_reorgs ops c fuel st height tip = some (.ok (none, st', h', t'))) :
    h' = new_height ∧ c.get_block_hash h' = some t' := by
  unfold check_reorgs at hrun
  split at hrun
  · rename_i hnone
    rw [hinfo] at hnone
    simp at hnone
  · rename_i nh hsome
    rw [hinfo] at hsome
    have hnh : new_height = nh := Option.some_inj.mp hsome
    subst hnh
    split at hrun
    · simp at hrun
    · simp at hrun
    · rename_i oreorg hwalk
      cases oreorg with
      | some reorg =>
        simp only [] at hrun
        cases hrem : remove_btc_blocks_when_fork ops st reorg.discarded_blocks with
        | error e =>
          rw [hrem] at hrun
          simp at hrun
        | ok st2 =>
          rw [hrem] at hrun
          simp only [] at hrun
          split at hrun
          · simp at hrun
          · simp at hrun
      | none =>
        simp only [] at hrun
        cases hadd : add_btc_blocks ops c st height tip new_height with
        | error e => rw [hadd] at hrun; simp at hrun
        | ok tup =>
          rw [hadd] at hrun
          obtain ⟨st3, h3, t3⟩ := tup
          simp only [Option.some.injEq, Except.ok.injEq, Prod.mk.injEq] at hrun
          obtain ⟨-, -, hh3, ht3⟩ := hrun
          unfold add_btc_blocks at hadd
          rcases add_btc_blocks_go_spec ops c (new_height - height) (height + 1)
              st height tip st3 h3 t3 hadd with ⟨hcnt, -, -, -⟩ | ⟨-, hhe, hbh⟩
          · omega
          · subst hh3 ht3
            constructor
            · omega
            · exact hbh

/-- Witness for C5 at `advance_client`: tracker at height 0 / tip 100,
chain at height 1, advance lands on height 1 / hash 101. -/
theorem check_reorgs_advances_witness :
    (1 : Nat) = 1 ∧ advance_client.get_block_hash 1 = some 101 :=
  check_reorgs_advances memStorage advance_client 10 ⟨[], []⟩ 0 100 1 ⟨[], []⟩ 1 101
    rfl (by omega) rfl

/-- C5 counterexample: the chain reports height 0 while the tracker is
at height 5 and its tip (hash 7) is still in the main chain. The call
succeeds with no reorg detected, but `current_height` stays 5, not the
reported `chain_info().blocks = 0` the claim requires. -/
theorem check_reorgs_no_advance_cex :
    check_reorgs memStorage shrink_client 10 ⟨[], []⟩ 5 7 =
      some (.ok (none, ⟨[], []⟩, 5, 7)) ∧
    shrink_client.chain_info_blocks = some 0 ∧
    (5 : Nat) ≠ 0 :=
  ⟨rfl, rfl, by decide⟩
